import Mathlib

/-!
Shallow embedding of the OAuth 2.1 resource-server middleware
(`oauth_middleware.go`) of the go-mcp-server-example repository, together
with proofs about its authorization gate, claim policy checks and
protected-resource metadata endpoint.
-/

namespace OAuthMCP

/-- A JSON value as Go's `encoding/json` decodes it into `interface{}`:
strings, numbers (we model the numeric domain by `Int`; Go decodes every
JSON number to `float64`, and `validateExpiration` truncates with
`int64(exp)`), booleans, null, arrays (`[]interface{}`) and objects
(`map[string]interface{}`). -/
inductive JSONValue where
  | str : String → JSONValue
  | num : Int → JSONValue
  | boolean : Bool → JSONValue
  | null : JSONValue
  | arr : List JSONValue → JSONValue
  | obj : List (String × JSONValue) → JSONValue

/-- Is this JSON value a string? Mirrors a Go type assertion `.(string)`. -/
def JSONValue.isString : JSONValue → Bool
  | JSONValue.str _ => true
  | _ => false

/-- Is this JSON value a number? Mirrors a Go type assertion `.(float64)`. -/
def JSONValue.isNum : JSONValue → Bool
  | JSONValue.num _ => true
  | _ => false

/-- Is this JSON value an array? Mirrors a Go type assertion `.([]interface{})`. -/
def JSONValue.isArr : JSONValue → Bool
  | JSONValue.arr _ => true
  | _ => false

/-- A claim set: `jwt.MapClaims`, i.e. `map[string]interface{}`, modelled as
an association list (a Go map has unique keys; lookup finds the entry). -/
def Claims : Type := List (String × JSONValue)

/-- Map lookup `claims[name]` with its `ok` flag folded into `Option`. -/
def getClaim (claims : Claims) (name : String) : Option JSONValue :=
  match claims with
  | [] => none
  | (k, v) :: rest => if k = name then some v else getClaim rest name

/-- OAuthConfig holds OAuth configuration (`AuthzServerURL`, `JwksURL`,
`ResourceURL`; the `jwks` keyfunc field is folded into the token model). -/
structure OAuthConfig where
  AuthzServerURL : String
  JwksURL : String
  ResourceURL : String

/-- Body of the loop in `validateAudience`: an array element counts only
when the type assertion `a.(string)` succeeds and the string equals the
configured resource URL. -/
def audElemMatches (c : OAuthConfig) (a : JSONValue) : Bool :=
  match a with
  | JSONValue.str audStr => audStr == c.ResourceURL
  | _ => false

/-- validateAudience: the `aud` claim may be a string or an array; a string
must equal `c.ResourceURL`, an array must contain some string element equal
to `c.ResourceURL`; anything else (missing claim, other types) fails. -/
def validateAudience (c : OAuthConfig) (claims : Claims) : Bool :=
  match getClaim claims "aud" with
  | some (JSONValue.str v) => v == c.ResourceURL
  | some (JSONValue.arr v) => v.any (audElemMatches c)
  | _ => false

/-- validateIssuer: the `iss` claim must be a string equal to
`c.AuthzServerURL`; a missing or non-string claim fails. -/
def validateIssuer (c : OAuthConfig) (claims : Claims) : Bool :=
  match getClaim claims "iss" with
  | some (JSONValue.str iss) => iss == c.AuthzServerURL
  | _ => false

/-- validateExpiration: the `exp` claim must be numeric and satisfy
`time.Now().Unix() < int64(exp)+60` (60 seconds of clock skew); `now` is
the evaluation time in Unix seconds. -/
def validateExpiration (_c : OAuthConfig) (now : Int) (claims : Claims) : Bool :=
  match getClaim claims "exp" with
  | some (JSONValue.num e) => decide (now < e + 60)
  | _ => false

/-- Splits a character list at every space character, as Go's
`strings.Split(s, " ")` does on the underlying string: consecutive spaces
produce empty segments, and the result is never empty. -/
def splitSpaces : List Char → List Char → List (List Char)
  | [], acc => [acc.reverse]
  | ch :: rest, acc =>
      if ch = ' ' then acc.reverse :: splitSpaces rest []
      else splitSpaces rest (ch :: acc)

/-- validateScope: the `scope` claim must be a string whose space-separated
segments (OAuth 2.0 standard) contain the literal `"mcp:tools"`. -/
def validateScope (_c : OAuthConfig) (claims : Claims) : Bool :=
  match getClaim claims "scope" with
  | some (JSONValue.str scope) =>
      (splitSpaces scope.data []).any (fun s => s == "mcp:tools".data)
  | _ => false

/-- A decoded view of the compact JWT carried after `Bearer `: either it is
not a parsable three-part JWS at all, or it decodes to a header algorithm,
a claim payload, and the verdict of verifying its signature against the
key that the JWKS keyfunc resolves for it (key resolution and cryptographic
verification are folded into the single flag `sigValid`). -/
inductive RawToken where
  | malformed : RawToken
  | wellFormed (alg : String) (claims : Claims) (sigValid : Bool) : RawToken

/-- Errors of the modelled `jwt.Parse`. -/
inductive ParseError where
  | malformedToken : ParseError
  | invalidAlgorithm : ParseError
  | invalidSignature : ParseError
  | expired : ParseError
  | invalidClaimType : ParseError

/-- Models `jwt.Parse(tokenString, keyfunc, jwt.WithValidMethods([...]))`
from golang-jwt v5: it fails on a malformed token, on a declared algorithm
outside the valid-methods list (checked before any signature work), on a
signature that does not verify, and — because the default parser validates
registered claims — on an `exp` claim that is not in the future (zero
leeway) or not numeric. A missing `exp` is not an error for the parser. -/
def jwtParse (now : Int) (validMethods : List String) : RawToken → Except ParseError Claims
  | RawToken.malformed => Except.error ParseError.malformedToken
  | RawToken.wellFormed alg claims sigValid =>
      if !(validMethods.any (fun m => m == alg)) then
        Except.error ParseError.invalidAlgorithm
      else if !sigValid then
        Except.error ParseError.invalidSignature
      else
        match getClaim claims "exp" with
        | none => Except.ok claims
        | some (JSONValue.num e) =>
            if decide (now < e) then Except.ok claims
            else Except.error ParseError.expired
        | some _ => Except.error ParseError.invalidClaimType

/-- An inbound HTTP request as the gate sees it: the `Authorization` header
value (`""` models an absent header, as `r.Header.Get` returns), the other
headers, the body, and the decoded view of the bearer substring. -/
structure Request where
  authorization : String
  otherHeaders : List (String × String)
  body : String
  token : RawToken

/-- The client-visible parts of an HTTP response from the gate. -/
structure Response where
  status : Nat
  wwwAuthenticate : Option String
  contentType : Option String
  body : String
deriving DecidableEq

/-- sendUnauthorized: 401 with the `WWW-Authenticate` challenge naming the
protected-resource metadata URL; `http.Error` sets the plain-text content
type and writes the fixed body `"Unauthorized\n"`. -/
def sendUnauthorized (c : OAuthConfig) : Response :=
  { status := 401
  , wwwAuthenticate :=
      some ("Bearer resource_metadata=\"" ++ c.ResourceURL
            ++ "/.well-known/oauth-protected-resource\"")
  , contentType := some "text/plain; charset=utf-8"
  , body := "Unauthorized\n" }

/-- Decomposes a header value that begins with the seven characters
`Bearer ` into the remaining characters; `none` when the tag is absent. -/
def bearerRest (s : String) : Option (List Char) :=
  match s.data with
  | 'B' :: 'e' :: 'a' :: 'r' :: 'e' :: 'r' :: ' ' :: rest => some rest
  | _ => none

/-- Models `strings.TrimPrefix(authHeader, "Bearer ")`: strip the seven
characters `Bearer ` when the string starts with them, otherwise return the
string unchanged. -/
def trimBearerTag (s : String) : String :=
  match bearerRest s with
  | some rest => String.mk rest
  | none => s

/-- Does the header value begin with the `Bearer ` scheme tag? -/
def hasBearerScheme (s : String) : Bool :=
  (bearerRest s).isSome

/-- Outcome of the authorization gate on one request: reject with a
response, or forward a request to the downstream handler. -/
inductive GateResult where
  | reject : Response → GateResult
  | forward : Request → GateResult

/-- OAuthMiddleware: the authorization gate. Checks the `Authorization`
header, extracts the bearer token, parses and verifies it (RS256 only),
then runs the four claim checks in order, rejecting with
`sendUnauthorized` on any failure and otherwise forwarding the original
request to the next handler. The successful parse always yields
`jwt.MapClaims` and a valid token, so those two Go checks cannot fail. -/
def OAuthMiddleware (c : OAuthConfig) (now : Int) (r : Request) : GateResult :=
  if r.authorization = "" then GateResult.reject (sendUnauthorized c)
  else
    if trimBearerTag r.authorization = r.authorization then GateResult.reject (sendUnauthorized c)
    else
      match jwtParse now ["RS256"] r.token with
      | Except.error _ => GateResult.reject (sendUnauthorized c)
      | Except.ok claims =>
          if !(validateAudience c claims) then GateResult.reject (sendUnauthorized c)
          else if !(validateIssuer c claims) then GateResult.reject (sendUnauthorized c)
          else if !(validateExpiration c now claims) then GateResult.reject (sendUnauthorized c)
          else if !(validateScope c claims) then GateResult.reject (sendUnauthorized c)
          else GateResult.forward r

/-- The protected resource metadata document (RFC 9728). -/
structure ProtectedResourceMetadata where
  resource : String
  scopesSupported : List String
  authorizationServers : List String
deriving DecidableEq

/-- The client-visible parts of a metadata-endpoint response. -/
structure MetadataResponse where
  status : Nat
  allowOrigin : String
  allowMethods : String
  allowHeaders : String
  contentType : Option String
  body : Option ProtectedResourceMetadata
deriving DecidableEq

/-- HandleProtectedResourceMetadata: sets permissive CORS headers; on
`OPTIONS` answers 200 with no body; on every other method answers 200 with
the metadata document as JSON. -/
def HandleProtectedResourceMetadata (c : OAuthConfig) (method : String) : MetadataResponse :=
  if method = "OPTIONS" then
    { status := 200
    , allowOrigin := "*"
    , allowMethods := "GET, OPTIONS"
    , allowHeaders := "Content-Type"
    , contentType := none
    , body := none }
  else
    { status := 200
    , allowOrigin := "*"
    , allowMethods := "GET, OPTIONS"
    , allowHeaders := "Content-Type"
    , contentType := some "application/json"
    , body := some
        { resource := c.ResourceURL
        , scopesSupported := ["mcp:tools"]
        , authorizationServers := [c.AuthzServerURL] } }

/-- A sample configuration used by concrete witnesses. -/
def cfg : OAuthConfig :=
  { AuthzServerURL := "http://auth.example"
  , JwksURL := "http://auth.example/jwks"
  , ResourceURL := "http://res.example" }

/-- A claim set that passes all four checks of `cfg` at time 900. -/
def goodClaims : Claims :=
  [ ("iss", JSONValue.str "http://auth.example")
  , ("aud", JSONValue.arr [JSONValue.str "http://res.example"])
  , ("exp", JSONValue.num 1000)
  , ("scope", JSONValue.str "mcp:tools read") ]

/-- A request that the gate forwards under `cfg` at time 900. -/
def goodRequest : Request :=
  { authorization := "Bearer abc"
  , otherHeaders := [("Content-Type", "application/json")]
  , body := "{}"
  , token := RawToken.wellFormed "RS256" goodClaims true }

/-- A claim set like `goodClaims` but expiring at time 901. -/
def shortLivedClaims : Claims :=
  [ ("iss", JSONValue.str "http://auth.example")
  , ("aud", JSONValue.arr [JSONValue.str "http://res.example"])
  , ("exp", JSONValue.num 901)
  , ("scope", JSONValue.str "mcp:tools") ]

/-- A request carrying `shortLivedClaims` in a well-signed RS256 token. -/
def shortLivedRequest : Request :=
  { authorization := "Bearer tok"
  , otherHeaders := []
  , body := ""
  , token := RawToken.wellFormed "RS256" shortLivedClaims true }

/-- A request with no `Authorization` header at all. -/
def noAuthRequest : Request :=
  { authorization := ""
  , otherHeaders := []
  , body := ""
  , token := RawToken.malformed }

/-- A request whose `Authorization` header uses a non-Bearer scheme. -/
def basicAuthRequest : Request :=
  { authorization := "Basic dXNlcjpwdw=="
  , otherHeaders := []
  , body := ""
  , token := RawToken.malformed }

/-- A well-signed request whose token lacks the required scope. -/
def badScopeRequest : Request :=
  { authorization := "Bearer tok2"
  , otherHeaders := []
  , body := ""
  , token := RawToken.wellFormed "RS256"
      [ ("iss", JSONValue.str "http://auth.example")
      , ("aud", JSONValue.str "http://res.example")
      , ("exp", JSONValue.num 1000)
      , ("scope", JSONValue.str "openid email") ] true }

/-- Claims in which every checked claim has the wrong type. -/
def badTypeClaims : Claims :=
  [ ("iss", JSONValue.num 5)
  , ("exp", JSONValue.str "soon")
  , ("aud", JSONValue.boolean true)
  , ("scope", JSONValue.arr [JSONValue.str "mcp:tools"]) ]

/-- An `aud` array mixing non-string elements with the matching string. -/
def mixedAudClaims : Claims :=
  [ ("aud", JSONValue.arr
      [ JSONValue.num 5
      , JSONValue.boolean true
      , JSONValue.obj [("x", JSONValue.null)]
      , JSONValue.str "http://res.example"
      , JSONValue.str "http://other.example" ]) ]

/-- An `aud` array whose elements are all non-strings. -/
def nonStringAudClaims : Claims :=
  [ ("aud", JSONValue.arr [JSONValue.num 1, JSONValue.null]) ]

/-! ### Helper lemmas -/

/-- Inversion for `bearerRest`: a successful decomposition exhibits the
header as the `Bearer ` characters followed by the rest. -/
lemma bearerRest_some_inv {s : String} {rest : List Char}
    (h : bearerRest s = some rest) :
    s.data = 'B' :: 'e' :: 'a' :: 'r' :: 'e' :: 'r' :: ' ' :: rest := by
  unfold bearerRest at h
  split at h
  next heq => cases h; exact heq
  next => cases h

/-- Stripping a present `Bearer ` tag strictly shortens, so the result
differs from the input. -/
lemma trimBearerTag_ne_self {s : String} (h : hasBearerScheme s = true) :
    trimBearerTag s ≠ s := by
  unfold hasBearerScheme at h
  cases hbr : bearerRest s with
  | none => rw [hbr] at h; cases h
  | some rest =>
    have hdata := bearerRest_some_inv hbr
    unfold trimBearerTag
    rw [hbr]
    intro hcontra
    have hlen := congrArg (fun t : String => t.data.length) hcontra
    simp only [hdata, List.length_cons] at hlen
    omega

/-- Without the `Bearer ` tag, `strings.TrimPrefix` returns its input. -/
lemma trimBearerTag_eq_self {s : String} (h : hasBearerScheme s = false) :
    trimBearerTag s = s := by
  unfold hasBearerScheme at h
  cases hbr : bearerRest s with
  | none => unfold trimBearerTag; rw [hbr]
  | some rest => rw [hbr] at h; cases h

/-- A header carrying the `Bearer ` scheme is not the empty string. -/
lemma ne_empty_of_hasBearerScheme {s : String} (h : hasBearerScheme s = true) :
    s ≠ "" := by
  unfold hasBearerScheme at h
  cases hbr : bearerRest s with
  | none => rw [hbr] at h; cases h
  | some rest =>
    have hdata := bearerRest_some_inv hbr
    intro hcontra
    rw [hcontra] at hdata
    cases hdata

/-- An array element passes the audience loop exactly when it is the string
equal to the configured resource URL. -/
lemma audElemMatches_iff {c : OAuthConfig} {a : JSONValue} :
    audElemMatches c a = true ↔ a = JSONValue.str c.ResourceURL := by
  cases a <;> simp [audElemMatches]

/-- Inversion for a successful modelled parse of a well-formed token: the
claims come out unchanged, the algorithm was RS256, the signature verified,
and the `exp` claim (if any) is numeric and in the future. -/
lemma jwtParse_ok_inv {now : Int} {alg : String} {claims claims' : Claims} {sig : Bool}
    (h : jwtParse now ["RS256"] (RawToken.wellFormed alg claims sig) = Except.ok claims') :
    claims' = claims ∧ alg = "RS256" ∧ sig = true ∧
      (getClaim claims "exp" = none ∨
        ∃ e : Int, getClaim claims "exp" = some (JSONValue.num e) ∧ now < e) := by
  simp only [jwtParse] at h
  cases halg : List.any ["RS256"] (fun m => m == alg) with
  | false => simp [halg] at h
  | true =>
    have halg' : alg = "RS256" := by
      simp only [List.any_cons, List.any_nil, Bool.or_false, beq_iff_eq] at halg
      exact halg.symm
    cases hsig : sig with
    | false => simp [halg, hsig] at h
    | true =>
      cases hexp : getClaim claims "exp" with
      | none =>
        simp [halg, hsig, hexp] at h
        exact ⟨h.symm, halg', rfl, Or.inl rfl⟩
      | some v =>
        cases v with
        | num e =>
          by_cases hlt : now < e
          · simp [halg, hsig, hexp, hlt] at h
            exact ⟨h.symm, halg', rfl, Or.inr ⟨e, rfl, hlt⟩⟩
          · simp [halg, hsig, hexp, hlt] at h
        | str s => simp [halg, hsig, hexp] at h
        | boolean b => simp [halg, hsig, hexp] at h
        | null => simp [halg, hsig, hexp] at h
        | arr xs => simp [halg, hsig, hexp] at h
        | obj fields => simp [halg, hsig, hexp] at h

/-- A well-formed RS256 token with a verified signature and a numeric,
unexpired `exp` claim parses successfully. -/
lemma jwtParse_ok_of {now : Int} {claims : Claims} {e : Int}
    (hexp : getClaim claims "exp" = some (JSONValue.num e)) (hlt : now < e) :
    jwtParse now ["RS256"] (RawToken.wellFormed "RS256" claims true) = Except.ok claims := by
  unfold jwtParse
  simp [hexp, hlt]

/-- Every run of the gate either rejects with the uniform `sendUnauthorized`
response or forwards the original request. -/
lemma gate_reject_or_forward (c : OAuthConfig) (now : Int) (r : Request) :
    OAuthMiddleware c now r = GateResult.reject (sendUnauthorized c) ∨
      OAuthMiddleware c now r = GateResult.forward r := by
  by_cases h1 : r.authorization = ""
  · left; simp [OAuthMiddleware, h1]
  · by_cases h2 : trimBearerTag r.authorization = r.authorization
    · left; simp [OAuthMiddleware, h1, h2]
    · cases hp : jwtParse now ["RS256"] r.token with
      | error e => left; simp [OAuthMiddleware, h1, h2, hp]
      | ok claims =>
        cases ha : validateAudience c claims with
        | false => left; simp [OAuthMiddleware, h1, h2, hp, ha]
        | true =>
          cases hi : validateIssuer c claims with
          | false => left; simp [OAuthMiddleware, h1, h2, hp, ha, hi]
          | true =>
            cases he : validateExpiration c now claims with
            | false => left; simp [OAuthMiddleware, h1, h2, hp, ha, hi, he]
            | true =>
              cases hs : validateScope c claims with
              | false => left; simp [OAuthMiddleware, h1, h2, hp, ha, hi, he, hs]
              | true => right; simp [OAuthMiddleware, h1, h2, hp, ha, hi, he, hs]

/-- Inversion of a forwarding run: the forwarded request is the original
one, the token parsed successfully, and all four claim checks passed. -/
lemma gate_forward_inv {c : OAuthConfig} {now : Int} {r r' : Request}
    (h : OAuthMiddleware c now r = GateResult.forward r') :
    r' = r ∧ ∃ claims : Claims,
      jwtParse now ["RS256"] r.token = Except.ok claims ∧
      validateAudience c claims = true ∧
      validateIssuer c claims = true ∧
      validateExpiration c now claims = true ∧
      validateScope c claims = true := by
  by_cases h1 : r.authorization = ""
  · simp [OAuthMiddleware, h1] at h
  · by_cases h2 : trimBearerTag r.authorization = r.authorization
    · simp [OAuthMiddleware, h1, h2] at h
    · cases hp : jwtParse now ["RS256"] r.token with
      | error e => simp [OAuthMiddleware, h1, h2, hp] at h
      | ok claims =>
        cases ha : validateAudience c claims with
        | false => simp [OAuthMiddleware, h1, h2, hp, ha] at h
        | true =>
          cases hi : validateIssuer c claims with
          | false => simp [OAuthMiddleware, h1, h2, hp, ha, hi] at h
          | true =>
            cases he : validateExpiration c now claims with
            | false => simp [OAuthMiddleware, h1, h2, hp, ha, hi, he] at h
            | true =>
              cases hs : validateScope c claims with
              | false => simp [OAuthMiddleware, h1, h2, hp, ha, hi, he, hs] at h
              | true =>
                simp [OAuthMiddleware, h1, h2, hp, ha, hi, he, hs] at h
                exact ⟨h.symm, claims, rfl, ha, hi, he, hs⟩

/-- Sufficient conditions for the gate to forward: a `Bearer `-schemed
header, a successfully parsing token, and all four claim checks true. -/
lemma gate_forwards {c : OAuthConfig} {now : Int} {r : Request} {claims : Claims}
    (hB : hasBearerScheme r.authorization = true)
    (hparse : jwtParse now ["RS256"] r.token = Except.ok claims)
    (haud : validateAudience c claims = true)
    (hiss : validateIssuer c claims = true)
    (hexp : validateExpiration c now claims = true)
    (hscope : validateScope c claims = true) :
    OAuthMiddleware c now r = GateResult.forward r := by
  have h1 : r.authorization ≠ "" := ne_empty_of_hasBearerScheme hB
  have h2 : trimBearerTag r.authorization ≠ r.authorization := trimBearerTag_ne_self hB
  simp [OAuthMiddleware, h1, h2, hparse, haud, hiss, hexp, hscope]

/-! ### Claim theorems -/

/-- C1: the expiry check of the gate follows the skew rule — it passes
exactly while `now < exp + 60`; a well-formed token whose `exp` is more
than 60 seconds in the past is rejected with the 401 response, and an
otherwise-valid token with `exp` exactly at `now + 1` is forwarded. -/
theorem expiry_decision_follows_skew_rule :
    (∀ (c : OAuthConfig) (now : Int) (claims : Claims) (e : Int),
        getClaim claims "exp" = some (JSONValue.num e) →
        (validateExpiration c now claims = true ↔ now < e + 60)) ∧
    (∀ (c : OAuthConfig) (now : Int) (r : Request) (alg : String) (claims : Claims)
        (sig : Bool) (e : Int),
        r.token = RawToken.wellFormed alg claims sig →
        getClaim claims "exp" = some (JSONValue.num e) →
        e + 60 < now →
        OAuthMiddleware c now r = GateResult.reject (sendUnauthorized c)) ∧
    (∀ (c : OAuthConfig) (now : Int) (r : Request) (claims : Claims),
        hasBearerScheme r.authorization = true →
        r.token = RawToken.wellFormed "RS256" claims true →
        getClaim claims "exp" = some (JSONValue.num (now + 1)) →
        validateAudience c claims = true →
        validateIssuer c claims = true →
        validateScope c claims = true →
        OAuthMiddleware c now r = GateResult.forward r) := by
  refine ⟨?_, ?_, ?_⟩
  · intro c now claims e hexp
    unfold validateExpiration
    rw [hexp]
    simp
  · intro c now r alg claims sig e htok hexp hlate
    rcases gate_reject_or_forward c now r with h | h
    · exact h
    · exfalso
      obtain ⟨-, claims', hp, -, -, hexpval, -⟩ := gate_forward_inv h
      rw [htok] at hp
      obtain ⟨rfl, -, -, -⟩ := jwtParse_ok_inv hp
      unfold validateExpiration at hexpval
      rw [hexp] at hexpval
      simp at hexpval
      omega
  · intro c now r claims hB htok hexp haud hiss hscope
    have hparse : jwtParse now ["RS256"] r.token = Except.ok claims := by
      rw [htok]; exact jwtParse_ok_of hexp (by omega)
    have hexpval : validateExpiration c now claims = true := by
      unfold validateExpiration
      rw [hexp]
      simp
      omega
    exact gate_forwards hB hparse haud hiss hexpval hscope

/-- Witness for C1: under `cfg`, the request with `exp = 901` is forwarded
at time 900 (`exp = now + 1`) and rejected at time 2000 (more than 60
seconds after `exp`). -/
theorem expiry_decision_follows_skew_rule_witness :
    OAuthMiddleware cfg 900 shortLivedRequest = GateResult.forward shortLivedRequest ∧
    OAuthMiddleware cfg 2000 shortLivedRequest = GateResult.reject (sendUnauthorized cfg) :=
  ⟨expiry_decision_follows_skew_rule.2.2 cfg 900 shortLivedRequest shortLivedClaims
      rfl rfl rfl rfl rfl rfl,
   expiry_decision_follows_skew_rule.2.1 cfg 2000 shortLivedRequest "RS256"
      shortLivedClaims true 901 rfl rfl (by decide)⟩

/-- C2: a well-formed token whose declared algorithm is not RS256 — for
example `none` or a symmetric algorithm — makes the modelled `jwt.Parse`
fail with the algorithm error, and the gate answers the uniform 401,
whatever the token's claims are. -/
theorem non_rs256_always_rejected :
    ∀ (c : OAuthConfig) (now : Int) (r : Request) (alg : String) (claims : Claims)
      (sig : Bool),
      r.token = RawToken.wellFormed alg claims sig →
      alg ≠ "RS256" →
      jwtParse now ["RS256"] r.token = Except.error ParseError.invalidAlgorithm ∧
      OAuthMiddleware c now r = GateResult.reject (sendUnauthorized c) := by
  intro c now r alg claims sig htok halg
  have hany : (List.any ["RS256"] fun m => m == alg) = false := by
    simp only [List.any_cons, List.any_nil, Bool.or_false, beq_eq_false_iff_ne, ne_eq]
    exact fun hcontra => halg hcontra.symm
  have hparse : jwtParse now ["RS256"] r.token = Except.error ParseError.invalidAlgorithm := by
    rw [htok]
    simp [jwtParse, hany]
  refine ⟨hparse, ?_⟩
  rcases gate_reject_or_forward c now r with h | h
  · exact h
  · exfalso
    obtain ⟨-, claims', hp, -⟩ := gate_forward_inv h
    rw [hparse] at hp
    cases hp

/-- Witness for C2: an unsigned (`alg = "none"`) token with otherwise
perfect claims is rejected. -/
theorem non_rs256_always_rejected_witness :
    OAuthMiddleware cfg 900
        { authorization := "Bearer t"
        , otherHeaders := []
        , body := ""
        , token := RawToken.wellFormed "none" goodClaims true } =
      GateResult.reject (sendUnauthorized cfg) :=
  (non_rs256_always_rejected cfg 900
      { authorization := "Bearer t"
      , otherHeaders := []
      , body := ""
      , token := RawToken.wellFormed "none" goodClaims true }
      "none" goodClaims true rfl (by decide)).2

/-- C9: whenever the gate forwards, it forwards exactly the original
request — headers, body and token untouched. -/
theorem forward_preserves_request :
    ∀ (c : OAuthConfig) (now : Int) (r req : Request),
      OAuthMiddleware c now r = GateResult.forward req → req = r :=
  fun _c _now _r _req h => (gate_forward_inv h).1

/-- Witness for C9: a concrete forwarding run whose forwarded request is
the original one. -/
theorem forward_preserves_request_witness :
    OAuthMiddleware cfg 900 goodRequest = GateResult.forward goodRequest ∧
      goodRequest = goodRequest :=
  ⟨rfl, forward_preserves_request cfg 900 goodRequest goodRequest rfl⟩

/-- C3: the audience check passes exactly when the `aud` claim is the
configured resource URL as a string, or an array containing that exact
string; a well-formed token whose `aud` array misses the resource URL is
rejected with 401, and one whose array contains it among other values is
forwarded when everything else is valid. -/
theorem audience_check_characterization :
    (∀ (c : OAuthConfig) (claims : Claims),
        validateAudience c claims = true ↔
          (getClaim claims "aud" = some (JSONValue.str c.ResourceURL) ∨
            ∃ xs : List JSONValue,
              getClaim claims "aud" = some (JSONValue.arr xs) ∧
                JSONValue.str c.ResourceURL ∈ xs)) ∧
    (∀ (c : OAuthConfig) (now : Int) (r : Request) (alg : String) (claims : Claims)
        (sig : Bool) (xs : List JSONValue),
        r.token = RawToken.wellFormed alg claims sig →
        getClaim claims "aud" = some (JSONValue.arr xs) →
        JSONValue.str c.ResourceURL ∉ xs →
        OAuthMiddleware c now r = GateResult.reject (sendUnauthorized c)) ∧
    (∀ (c : OAuthConfig) (now : Int) (r : Request) (claims : Claims)
        (xs : List JSONValue) (e : Int),
        hasBearerScheme r.authorization = true →
        r.token = RawToken.wellFormed "RS256" claims true →
        getClaim claims "aud" = some (JSONValue.arr xs) →
        JSONValue.str c.ResourceURL ∈ xs →
        validateIssuer c claims = true →
        getClaim claims "exp" = some (JSONValue.num e) →
        now < e →
        validateScope c claims = true →
        OAuthMiddleware c now r = GateResult.forward r) := by
  have hchar : ∀ (c : OAuthConfig) (claims : Claims),
      validateAudience c claims = true ↔
        (getClaim claims "aud" = some (JSONValue.str c.ResourceURL) ∨
          ∃ xs : List JSONValue,
            getClaim claims "aud" = some (JSONValue.arr xs) ∧
              JSONValue.str c.ResourceURL ∈ xs) := by
    intro c claims
    unfold validateAudience
    cases haud : getClaim claims "aud" with
    | none => simp
    | some v =>
      cases v with
      | str s => simp
      | num n => simp
      | boolean b => simp
      | null => simp
      | obj fields => simp
      | arr xs =>
        simp only [List.any_eq_true, Option.some.injEq]
        constructor
        · rintro ⟨a, ha, hm⟩
          rw [audElemMatches_iff] at hm
          subst hm
          exact Or.inr ⟨xs, rfl, ha⟩
        · rintro (hcontra | ⟨xs', heq, hmem⟩)
          · cases hcontra
          · obtain rfl : xs = xs' := by injection heq
            exact ⟨_, hmem, audElemMatches_iff.mpr rfl⟩
  refine ⟨hchar, ?_, ?_⟩
  · intro c now r alg claims sig xs htok haud hnot
    rcases gate_reject_or_forward c now r with h | h
    · exact h
    · exfalso
      obtain ⟨-, claims', hp, haudval, -, -, -⟩ := gate_forward_inv h
      rw [htok] at hp
      obtain ⟨rfl, -, -, -⟩ := jwtParse_ok_inv hp
      rcases (hchar c claims').mp haudval with hstr | ⟨xs', harr, hmem⟩
      · rw [haud] at hstr
        injection hstr with hstr'
        cases hstr'
      · rw [haud] at harr
        injection harr with harr'
        injection harr' with harr''
        exact hnot (harr'' ▸ hmem)
  · intro c now r claims xs e hB htok haud hmem hiss hexp hlt hscope
    have hparse : jwtParse now ["RS256"] r.token = Except.ok claims := by
      rw [htok]; exact jwtParse_ok_of hexp hlt
    have haudval : validateAudience c claims = true :=
      (hchar c claims).mpr (Or.inr ⟨xs, haud, hmem⟩)
    have hexpval : validateExpiration c now claims = true := by
      unfold validateExpiration
      rw [hexp]
      simp
      omega
    exact gate_forwards hB hparse haudval hiss hexpval hscope

/-- Witness for C3: under `cfg`, the mixed `aud` array containing the
resource URL passes the audience check, and a well-signed token whose
`aud` array names only another resource is rejected. -/
theorem audience_check_characterization_witness :
    validateAudience cfg mixedAudClaims = true ∧
    OAuthMiddleware cfg 900
        { authorization := "Bearer t3"
        , otherHeaders := []
        , body := ""
        , token := RawToken.wellFormed "RS256"
            [("aud", JSONValue.arr [JSONValue.str "http://other.example"])] true } =
      GateResult.reject (sendUnauthorized cfg) :=
  ⟨(audience_check_characterization.1 cfg mixedAudClaims).mpr
      (Or.inr ⟨_, rfl, by simp [cfg]⟩),
   audience_check_characterization.2.1 cfg 900 _ "RS256"
      [("aud", JSONValue.arr [JSONValue.str "http://other.example"])] true
      [JSONValue.str "http://other.example"] rfl rfl (by simp [cfg])⟩

/-- C4: the scope check passes exactly when the `scope` claim is a string
whose space-separated segments contain the literal `mcp:tools`; a
well-formed token failing the scope check is rejected with 401. -/
theorem scope_check_characterization :
    (∀ (c : OAuthConfig) (claims : Claims),
        validateScope c claims = true ↔
          ∃ s : String,
            getClaim claims "scope" = some (JSONValue.str s) ∧
              "mcp:tools".data ∈ splitSpaces s.data []) ∧
    (∀ (c : OAuthConfig) (now : Int) (r : Request) (alg : String) (claims : Claims)
        (sig : Bool),
        r.token = RawToken.wellFormed alg claims sig →
        validateScope c claims = false →
        OAuthMiddleware c now r = GateResult.reject (sendUnauthorized c)) := by
  constructor
  · intro c claims
    unfold validateScope
    cases hscope : getClaim claims "scope" with
    | none => simp
    | some v =>
      cases v with
      | str s =>
        simp only [List.any_eq_true, Option.some.injEq]
        constructor
        · rintro ⟨t, ht, hbeq⟩
          rw [beq_iff_eq] at hbeq
          subst hbeq
          exact ⟨s, rfl, ht⟩
        · rintro ⟨s', heq, hmem⟩
          injection heq with heq'
          subst heq'
          exact ⟨_, hmem, beq_iff_eq.mpr rfl⟩
      | num n => simp
      | boolean b => simp
      | null => simp
      | arr xs => simp
      | obj fields => simp
  · intro c now r alg claims sig htok hscope
    rcases gate_reject_or_forward c now r with h | h
    · exact h
    · exfalso
      obtain ⟨-, claims', hp, -, -, -, hscopeval⟩ := gate_forward_inv h
      rw [htok] at hp
      obtain ⟨rfl, -, -, -⟩ := jwtParse_ok_inv hp
      rw [hscope] at hscopeval
      cases hscopeval

/-- Witness for C4: `"mcp:tools read"` contains the required scope token,
and the well-signed request whose scope is `"openid email"` is rejected. -/
theorem scope_check_characterization_witness :
    validateScope cfg goodClaims = true ∧
    OAuthMiddleware cfg 900 badScopeRequest = GateResult.reject (sendUnauthorized cfg) :=
  ⟨(scope_check_characterization.1 cfg goodClaims).mpr
      ⟨"mcp:tools read", rfl, by decide⟩,
   scope_check_characterization.2 cfg 900 badScopeRequest "RS256"
      [ ("iss", JSONValue.str "http://auth.example")
      , ("aud", JSONValue.str "http://res.example")
      , ("exp", JSONValue.num 1000)
      , ("scope", JSONValue.str "openid email") ] true rfl (by decide)⟩

/-- C5: a request with no `Authorization` header or a non-Bearer scheme is
rejected with 401 and the `WWW-Authenticate` challenge naming the
protected-resource metadata URL, without reaching the downstream handler. -/
theorem missing_or_non_bearer_rejected_with_challenge :
    ∀ (c : OAuthConfig) (now : Int) (r : Request),
      r.authorization = "" ∨ hasBearerScheme r.authorization = false →
      OAuthMiddleware c now r = GateResult.reject (sendUnauthorized c) ∧
      (sendUnauthorized c).status = 401 ∧
      (sendUnauthorized c).wwwAuthenticate =
        some ("Bearer resource_metadata=\"" ++ c.ResourceURL
              ++ "/.well-known/oauth-protected-resource\"") := by
  intro c now r h
  refine ⟨?_, rfl, rfl⟩
  rcases h with h | h
  · simp [OAuthMiddleware, h]
  · have h2 := trimBearerTag_eq_self h
    by_cases h1 : r.authorization = ""
    · simp [OAuthMiddleware, h1]
    · simp [OAuthMiddleware, h1, h2]

/-- Witness for C5: a request with no header and a request with a `Basic`
scheme are both rejected with the uniform challenge response. -/
theorem missing_or_non_bearer_rejected_with_challenge_witness :
    OAuthMiddleware cfg 900 noAuthRequest = GateResult.reject (sendUnauthorized cfg) ∧
    OAuthMiddleware cfg 900 basicAuthRequest = GateResult.reject (sendUnauthorized cfg) :=
  ⟨(missing_or_non_bearer_rejected_with_challenge cfg 900 noAuthRequest (Or.inl rfl)).1,
   (missing_or_non_bearer_rejected_with_challenge cfg 900 basicAuthRequest (Or.inr rfl)).1⟩

/-- C6: any two rejected requests receive literally the same response —
status 401, same `WWW-Authenticate` value, same body — whatever the
failing step was. -/
theorem rejections_indistinguishable :
    ∀ (c : OAuthConfig) (now₁ now₂ : Int) (r₁ r₂ : Request) (resp₁ resp₂ : Response),
      OAuthMiddleware c now₁ r₁ = GateResult.reject resp₁ →
      OAuthMiddleware c now₂ r₂ = GateResult.reject resp₂ →
      resp₁ = resp₂ ∧ resp₁.status = 401 := by
  intro c n₁ n₂ r₁ r₂ resp₁ resp₂ h₁ h₂
  have e₁ : resp₁ = sendUnauthorized c := by
    rcases gate_reject_or_forward c n₁ r₁ with h | h
    · rw [h₁] at h; injection h
    · rw [h₁] at h; cases h
  have e₂ : resp₂ = sendUnauthorized c := by
    rcases gate_reject_or_forward c n₂ r₂ with h | h
    · rw [h₂] at h; injection h
    · rw [h₂] at h; cases h
  subst e₁
  subst e₂
  exact ⟨rfl, rfl⟩

/-- Witness for C6: a missing-header rejection and an insufficient-scope
rejection produce the identical 401 response. -/
theorem rejections_indistinguishable_witness :
    sendUnauthorized cfg = sendUnauthorized cfg ∧ (sendUnauthorized cfg).status = 401 :=
  rejections_indistinguishable cfg 900 900 noAuthRequest badScopeRequest
    (sendUnauthorized cfg) (sendUnauthorized cfg) rfl rfl

/-- C7 counterexample: the metadata handler does not respond to GET and
OPTIONS only — a POST receives exactly the same 200 response with the full
metadata document as a GET, since the handler never restricts the method. -/
theorem metadata_serves_any_method :
    HandleProtectedResourceMetadata cfg "POST" = HandleProtectedResourceMetadata cfg "GET" ∧
    (HandleProtectedResourceMetadata cfg "POST").status = 200 ∧
    (HandleProtectedResourceMetadata cfg "POST").body =
      some { resource := "http://res.example"
           , scopesSupported := ["mcp:tools"]
           , authorizationServers := ["http://auth.example"] } :=
  ⟨rfl, rfl, rfl⟩

/-- C7 amended: the metadata endpoint does not restrict the method. Every
OPTIONS request gets 200 with permissive CORS headers and no body; every
other method — GET included — gets 200 with the configured resource URL,
authorization server URL and supported scope, JSON content type, and a
CORS header allowing any origin. -/
theorem metadata_endpoint_behavior :
    ∀ (c : OAuthConfig) (method : String),
      (HandleProtectedResourceMetadata c "OPTIONS" =
        { status := 200
        , allowOrigin := "*"
        , allowMethods := "GET, OPTIONS"
        , allowHeaders := "Content-Type"
        , contentType := none
        , body := none }) ∧
      (method ≠ "OPTIONS" →
        HandleProtectedResourceMetadata c method =
          { status := 200
          , allowOrigin := "*"
          , allowMethods := "GET, OPTIONS"
          , allowHeaders := "Content-Type"
          , contentType := some "application/json"
          , body := some
              { resource := c.ResourceURL
              , scopesSupported := ["mcp:tools"]
              , authorizationServers := [c.AuthzServerURL] } }) := by
  intro c method
  refine ⟨rfl, fun h => ?_⟩
  simp [HandleProtectedResourceMetadata, h]

/-- Witness for the amended C7: a GET under `cfg` yields the JSON metadata
response. -/
theorem metadata_endpoint_behavior_witness :
    HandleProtectedResourceMetadata cfg "GET" =
      { status := 200
      , allowOrigin := "*"
      , allowMethods := "GET, OPTIONS"
      , allowHeaders := "Content-Type"
      , contentType := some "application/json"
      , body := some
          { resource := "http://res.example"
          , scopesSupported := ["mcp:tools"]
          , authorizationServers := ["http://auth.example"] } } :=
  (metadata_endpoint_behavior cfg "GET").2 (by decide)

/-- C8: a required claim that is missing or has the wrong type makes the
corresponding check return `false` — the total Lean functions crash on
nothing — and every run of the gate ends in forwarding or in the uniform
401; no 5xx outcome exists. -/
theorem malformed_claims_fail_closed_no_5xx :
    (∀ (c : OAuthConfig) (claims : Claims),
        (getClaim claims "iss").all (fun v => !(JSONValue.isString v)) = true →
        validateIssuer c claims = false) ∧
    (∀ (c : OAuthConfig) (now : Int) (claims : Claims),
        (getClaim claims "exp").all (fun v => !(JSONValue.isNum v)) = true →
        validateExpiration c now claims = false) ∧
    (∀ (c : OAuthConfig) (claims : Claims),
        (getClaim claims "aud").all
            (fun v => !(JSONValue.isString v) && !(JSONValue.isArr v)) = true →
        validateAudience c claims = false) ∧
    (∀ (c : OAuthConfig) (claims : Claims),
        (getClaim claims "scope").all (fun v => !(JSONValue.isString v)) = true →
        validateScope c claims = false) ∧
    (∀ (c : OAuthConfig) (now : Int) (r : Request),
        OAuthMiddleware c now r = GateResult.forward r ∨
          (OAuthMiddleware c now r = GateResult.reject (sendUnauthorized c) ∧
            (sendUnauthorized c).status = 401)) := by
  refine ⟨?_, ?_, ?_, ?_, ?_⟩
  · intro c claims h
    cases hiss : getClaim claims "iss" with
    | none => simp [validateIssuer, hiss]
    | some v =>
      rw [hiss] at h
      simp [Option.all] at h
      cases v with
      | str s => simp [JSONValue.isString] at h
      | num n => simp [validateIssuer, hiss]
      | boolean b => simp [validateIssuer, hiss]
      | null => simp [validateIssuer, hiss]
      | arr xs => simp [validateIssuer, hiss]
      | obj fields => simp [validateIssuer, hiss]
  · intro c now claims h
    cases hexp : getClaim claims "exp" with
    | none => simp [validateExpiration, hexp]
    | some v =>
      rw [hexp] at h
      simp [Option.all] at h
      cases v with
      | num e => simp [JSONValue.isNum] at h
      | str s => simp [validateExpiration, hexp]
      | boolean b => simp [validateExpiration, hexp]
      | null => simp [validateExpiration, hexp]
      | arr xs => simp [validateExpiration, hexp]
      | obj fields => simp [validateExpiration, hexp]
  · intro c claims h
    cases haud : getClaim claims "aud" with
    | none => simp [validateAudience, haud]
    | some v =>
      rw [haud] at h
      simp [Option.all] at h
      cases v with
      | str s => simp [JSONValue.isString] at h
      | arr xs => simp [JSONValue.isArr] at h
      | num n => simp [validateAudience, haud]
      | boolean b => simp [validateAudience, haud]
      | null => simp [validateAudience, haud]
      | obj fields => simp [validateAudience, haud]
  · intro c claims h
    cases hscope : getClaim claims "scope" with
    | none => simp [validateScope, hscope]
    | some v =>
      rw [hscope] at h
      simp [Option.all] at h
      cases v with
      | str s => simp [JSONValue.isString] at h
      | num n => simp [validateScope, hscope]
      | boolean b => simp [validateScope, hscope]
      | null => simp [validateScope, hscope]
      | arr xs => simp [validateScope, hscope]
      | obj fields => simp [validateScope, hscope]
  · intro c now r
    rcases gate_reject_or_forward c now r with h | h
    · exact Or.inr ⟨h, rfl⟩
    · exact Or.inl h

/-- Witness for C8: on the all-wrong-types claim set every check fails. -/
theorem malformed_claims_fail_closed_no_5xx_witness :
    validateIssuer cfg badTypeClaims = false ∧
    validateExpiration cfg 900 badTypeClaims = false ∧
    validateAudience cfg badTypeClaims = false ∧
    validateScope cfg badTypeClaims = false :=
  ⟨malformed_claims_fail_closed_no_5xx.1 cfg badTypeClaims rfl,
   malformed_claims_fail_closed_no_5xx.2.1 cfg 900 badTypeClaims rfl,
   malformed_claims_fail_closed_no_5xx.2.2.1 cfg badTypeClaims rfl,
   malformed_claims_fail_closed_no_5xx.2.2.2.1 cfg badTypeClaims rfl⟩

/-- C10: the audience loop skips non-string array elements instead of
failing on them — one matching string element suffices however many
non-string elements surround it, and an array of only non-strings fails. -/
theorem audience_ignores_non_string_elements :
    (∀ (c : OAuthConfig) (claims : Claims) (xs : List JSONValue),
        getClaim claims "aud" = some (JSONValue.arr xs) →
        JSONValue.str c.ResourceURL ∈ xs →
        validateAudience c claims = true) ∧
    (∀ (c : OAuthConfig) (claims : Claims) (xs : List JSONValue),
        getClaim claims "aud" = some (JSONValue.arr xs) →
        (∀ x ∈ xs, JSONValue.isString x = false) →
        validateAudience c claims = false) := by
  constructor
  · intro c claims xs haud hmem
    unfold validateAudience
    rw [haud]
    rw [List.any_eq_true]
    exact ⟨_, hmem, audElemMatches_iff.mpr rfl⟩
  · intro c claims xs haud hall
    unfold validateAudience
    rw [haud]
    rw [Bool.eq_false_iff]
    intro hany
    rw [List.any_eq_true] at hany
    obtain ⟨a, ha, hm⟩ := hany
    rw [audElemMatches_iff] at hm
    subst hm
    have := hall _ ha
    simp [JSONValue.isString] at this

/-- Witness for C10: the mixed array containing numbers, a boolean, an
object and the matching string passes; the all-non-string array fails. -/
theorem audience_ignores_non_string_elements_witness :
    validateAudience cfg mixedAudClaims = true ∧
    validateAudience cfg nonStringAudClaims = false :=
  ⟨audience_ignores_non_string_elements.1 cfg mixedAudClaims _ rfl (by simp [cfg]),
   audience_ignores_non_string_elements.2 cfg nonStringAudClaims _ rfl
     (by
       intro x hx
       simp only [nonStringAudClaims, List.mem_cons, List.not_mem_nil, or_false] at hx
       rcases hx with rfl | rfl <;> rfl)⟩

end OAuthMCP
